import Mathlib

/-!
# POS system — sale-submission and stock-adjustment core, shallow embedding

This file embeds the transactional core of the `pos-system` repository:

* `POST /api/sales` (`src/back/routes/sales.js`, lines 81–195): sale commit with
  per-item stock check/decrement and full rollback on error;
* `PUT /api/products/:uuid/stock` (`src/back/routes/products.js`, lines 547–631):
  the three stock-adjustment modes (bulk replace, sell, absolute set);
* `PUT /api/products/:uuid` (`src/back/routes/products.js`, lines 326–424):
  product metadata/sizes update;
* `DELETE /api/sales/bulk-delete` (`src/back/routes/sales.js`, lines 270–308);
* the frontend payload builder `submitSaleToHistory`
  (`src/front` service file, manual-item branch).

The relational store is modelled as lists of rows mirroring `db_schema.sql`.
Machine/DB numbers (`INT`, `DECIMAL`) are modelled as `Int`; JavaScript
string absence is modelled as `""` (which matches JS truthiness of `""`);
possibly-absent numeric request fields that the code reads through `x || 0`
are modelled as `Option Int`.  Each route handler runs inside one DB
transaction: a handler returns the store the client observes afterwards
together with an optional error, and every early-return error branch of the
source calls `connection.rollback()`, so those branches return the store the
transaction started from.  Auth middleware, timestamps, `user_id` columns and
the category/manufacturer reference columns are omitted: no claim mentions
them.
-/

/-- A row of `products` (`db_schema.sql`).  Category/manufacturer reference
columns and timestamps are omitted (unused by the verified routes' logic). -/
structure ProductRow where
  product_id : Nat
  uuid : String
  title : String
  code : String
  price : Int
  image : String
  full_size_image : String
  isVisible : Bool
deriving DecidableEq

/-- A row of `product_sizes`; the table has `UNIQUE KEY uq_product_size
(product_id, size_name)`. -/
structure SizeRow where
  product_id : Nat
  size_name : String
  stock : Int
deriving DecidableEq

/-- A row of `sales` (header).  `user_id` and timestamp columns omitted. -/
structure SaleRow where
  sale_id : Nat
  uuid : String
  total_amount : Int
  payment_method : String
  notes : String
deriving DecidableEq

/-- A row of `sale_items`: the denormalized line-item snapshot. -/
structure SaleItemRow where
  sale_id : Nat
  product_id : Option Nat
  product_uuid : Option String
  title : String
  code : String
  image : String
  full_size_image : String
  selected_size : String
  quantity : Int
  unit_price : Int
  discount : Int
  final_price : Int
deriving DecidableEq

/-- The relational store: one list per table, plus the `sales` table's
auto-increment counter. -/
structure Store where
  products : List ProductRow
  product_sizes : List SizeRow
  sales : List SaleRow
  sale_items : List SaleItemRow
  nextSaleId : Nat
deriving DecidableEq

/-- JavaScript `x || 0` on a possibly-absent numeric field (absent ↦ 0;
for present integer values it is the identity, since `0 || 0` is `0`). -/
def orZero : Option Int → Int
  | none => 0
  | some n => n

/-- JavaScript truthiness of a string value (absent strings are modelled
as `""`, which is falsy, exactly like `undefined`). -/
def truthy (s : String) : Bool := !(s == "")

/-- JavaScript `s || d` for string values (modelling absent as `""`). -/
def strOr (s d : String) : String := if s == "" then d else s

/-- One element of the `items` array of a `POST /api/sales` request body.
String fields that may be absent are modelled as `""`; `manualPrice` is kept
optional because the backend reads it through `item.manualPrice || 0` and the
repository's own frontend never sends that key. -/
structure ReqItem where
  isManual : Bool
  productId : String
  title : String
  code : String
  image : String
  fullSizeImage : String
  selectedSize : String
  quantity : Int
  unitPrice : Int
  discount : Int
  finalPrice : Int
  manualPrice : Option Int
deriving DecidableEq

/-- The typed errors the sale-commit route can answer with (each is an HTTP
400 response in the source; the message strings carry exactly these data). -/
inductive SaleError where
  /-- line 86: `Missing required fields for sale.` -/
  | validationError : SaleError
  /-- line 132: `Product with UUID ... not found.` -/
  | productNotFound : String → SaleError
  /-- line 158: `Not enough stock for (title) (Size: ...). Available: ...,
  Requested: ...` — carries title, size, available, requested. -/
  | insufficientStock : String → String → Int → Int → SaleError
deriving DecidableEq

/-- `SELECT ... FROM products WHERE uuid = ?` (first match). -/
def findProduct (ps : List ProductRow) (uuid : String) : Option ProductRow :=
  ps.find? (fun p => p.uuid == uuid)

/-- `SELECT stock FROM product_sizes WHERE product_id = ? AND size_name = ?`
(first match; the unique key makes it the only one). -/
def findSize (rows : List SizeRow) (pid : Nat) (size : String) : Option SizeRow :=
  rows.find? (fun r => r.product_id == pid && r.size_name == size)

/-- `UPDATE product_sizes SET stock = stock - ? WHERE product_id = ? AND
size_name = ?`. -/
def decStock (rows : List SizeRow) (pid : Nat) (size : String) (q : Int) :
    List SizeRow :=
  rows.map (fun r =>
    if r.product_id == pid && r.size_name == size then
      { r with stock := r.stock - q }
    else r)

/-- `UPDATE product_sizes SET stock = ? WHERE product_id = ? AND size_name = ?`. -/
def setStock (rows : List SizeRow) (pid : Nat) (size : String) (v : Int) :
    List SizeRow :=
  rows.map (fun r =>
    if r.product_id == pid && r.size_name == size then { r with stock := v }
    else r)

/-- `DELETE FROM product_sizes WHERE product_id = ?`. -/
def deleteSizes (rows : List SizeRow) (pid : Nat) : List SizeRow :=
  rows.filter (fun r => !(r.product_id == pid))

/-- `INSERT ... ON DUPLICATE KEY UPDATE stock = VALUES(stock)` for one
`(product_id, size_name)` key. -/
def upsertSize (rows : List SizeRow) (pid : Nat) (size : String) (v : Int) :
    List SizeRow :=
  match findSize rows pid size with
  | some _ => setStock rows pid size v
  | none => rows ++ [{ product_id := pid, size_name := size, stock := v }]

/-- Does a `(size, stock)` list repeat a size name?  A bulk `INSERT` of such a
list violates `uq_product_size` and makes the transaction roll back. -/
def hasDupNames : List (String × Int) → Bool
  | [] => false
  | (s, _) :: rest => rest.any (fun sp => sp.fst == s) || hasDupNames rest

/-- The sale header row inserted by `POST /api/sales` (line 96–99). -/
def saleHeaderRow (saleId : Nat) (u : String) (t : Int) (pm nt : String) :
    SaleRow :=
  { sale_id := saleId, uuid := u, total_amount := t, payment_method := pm,
    notes := nt }

/-- The `sale_items` row built for a manual item (`sales.js` lines 116–127).
The backend recomputes the final price as
`(item.manualPrice || 0) * (item.quantity || 0) - (item.discount || 0)`. -/
def manualItemRow (saleId : Nat) (item : ReqItem) : SaleItemRow :=
  { sale_id := saleId, product_id := none, product_uuid := none,
    title := item.title, code := item.code, image := "", full_size_image := "",
    selected_size := strOr item.selectedSize "N/A",
    quantity := item.quantity, unit_price := item.unitPrice,
    discount := item.discount,
    final_price := orZero item.manualPrice * item.quantity - item.discount }

/-- The `sale_items` row built for a catalog item (`sales.js` lines 134–144):
every snapshot field, including `final_price`, is taken from the request. -/
def catalogItemRow (saleId : Nat) (pid : Nat) (item : ReqItem) : SaleItemRow :=
  { sale_id := saleId, product_id := some pid, product_uuid := some item.productId,
    title := item.title, code := item.code, image := item.image,
    full_size_image := item.fullSizeImage, selected_size := item.selectedSize,
    quantity := item.quantity, unit_price := item.unitPrice,
    discount := item.discount, final_price := item.finalPrice }

/-- The stock check/decrement block of the sale item loop (`sales.js` lines
146–160): runs only when the request carries a truthy `selectedSize`; when no
size row matches, it neither checks nor decrements nor errors. -/
def stockCheck (cur : Store) (pid : Nat) (item : ReqItem) :
    Except SaleError Store :=
  if truthy item.selectedSize then
    match findSize cur.product_sizes pid item.selectedSize with
    | some r =>
      if item.quantity ≤ r.stock then
        Except.ok { cur with product_sizes :=
          (decStock cur.product_sizes pid item.selectedSize item.quantity) }
      else
        Except.error (SaleError.insufficientStock item.title
          item.selectedSize r.stock item.quantity)
    | none => Except.ok cur
  else Except.ok cur

/-- One iteration of the item loop of `POST /api/sales` (lines 102–168):
manual items are inserted with the backend-recomputed final price; catalog
items resolve their product, run the stock check/decrement, then insert the
snapshot row. -/
def saleItemStep (saleId : Nat) (cur : Store) (item : ReqItem) :
    Except SaleError Store :=
  if item.isManual then
    Except.ok { cur with sale_items :=
      cur.sale_items ++ [manualItemRow saleId item] }
  else
    match findProduct cur.products item.productId with
    | none => Except.error (SaleError.productNotFound item.productId)
    | some p =>
      match stockCheck cur p.product_id item with
      | Except.error e => Except.error e
      | Except.ok cur2 =>
        Except.ok { cur2 with sale_items :=
          cur2.sale_items ++ [catalogItemRow saleId p.product_id item] }

/-- The item loop of `POST /api/sales`, acting on the in-transaction store
`cur`.  An `error` result makes the handler roll the whole transaction
back. -/
def saleItemsLoop (saleId : Nat) (cur : Store) :
    List ReqItem → Except SaleError Store
  | [] => Except.ok cur
  | item :: rest =>
    match saleItemStep saleId cur item with
    | Except.error e => Except.error e
    | Except.ok cur2 => saleItemsLoop saleId cur2 rest

/-- `POST /api/sales` (`sales.js` lines 81–195).  Returns the store the client
observes after the response, and the error (if any).  The handler first
inserts the sale header (to obtain the generated id), then runs the item
loop; every error branch of the source calls `connection.rollback()` before
responding, so an error answer leaves the pre-transaction store. -/
def commitSale (st : Store) (saleUuid : String) (items : List ReqItem)
    (totalAmount : Int) (paymentMethod : String) (notes : String) :
    Store × Option SaleError :=
  if items.isEmpty || !(truthy paymentMethod) then
    (st, some SaleError.validationError)
  else
    match saleItemsLoop st.nextSaleId
        { st with
          sales := st.sales ++ [saleHeaderRow st.nextSaleId saleUuid
            totalAmount paymentMethod notes],
          nextSaleId := st.nextSaleId + 1 } items with
    | Except.ok st2 => (st2, none)
    | Except.error e => (st, some e)

/-- The three request shapes of `PUT /api/products/:uuid/stock`, in the
route's own dispatch order: `updatedSizesArray` first, then
`action === 'sell'`, then a plain single-size set. -/
inductive StockReq where
  | replaceAll : List (String × Int) → StockReq
  | sell : String → Int → StockReq
  | setAbsolute : String → Int → StockReq
deriving DecidableEq

/-- Errors of `PUT /api/products/:uuid/stock` (HTTP 404/400 answers; the
duplicate-key case is the SQL `uq_product_size` violation caught by the
route's catch block, which also rolls back). -/
inductive StockError where
  | productNotFound : StockError
  | invalidQuantity : StockError
  | sizeNotFound : String → StockError
  | duplicateSizeKey : StockError
deriving DecidableEq

/-- `Math.max(0, n)`. -/
def clamp0 (n : Int) : Int := max 0 n

/-- `PUT /api/products/:uuid/stock` (`products.js` lines 547–631).  The
`sell` branch reproduces the source faithfully, including the legacy clamp:
when current stock is below the quantity sold it sets the stock to 0 and
still answers with success (lines 589–594). -/
def adjustStock (st : Store) (productUuid : String) (req : StockReq) :
    Store × Option StockError :=
  match findProduct st.products productUuid with
  | none => (st, some StockError.productNotFound)
  | some p =>
    match req with
    | StockReq.replaceAll sizes =>
      if hasDupNames sizes then (st, some StockError.duplicateSizeKey)
      else
        ({ st with product_sizes :=
            deleteSizes st.product_sizes p.product_id ++
              sizes.map (fun sp =>
                { product_id := p.product_id, size_name := sp.fst,
                  stock := clamp0 sp.snd }) }, none)
    | StockReq.sell sizeName newStock =>
      let quantitySold : Int := |newStock|
      if quantitySold ≤ 0 then (st, some StockError.invalidQuantity)
      else
        match findSize st.product_sizes p.product_id sizeName with
        | none => (st, some (StockError.sizeNotFound sizeName))
        | some r =>
          if r.stock < quantitySold then
            ({ st with product_sizes :=
                setStock st.product_sizes p.product_id sizeName 0 }, none)
          else
            ({ st with product_sizes :=
                decStock st.product_sizes p.product_id sizeName quantitySold },
             none)
    | StockReq.setAbsolute sizeName newStock =>
      ({ st with product_sizes :=
          upsertSize st.product_sizes p.product_id sizeName (clamp0 newStock) },
       none)

/-- The body of `PUT /api/products/:uuid` (`products.js` lines 326–424) as far
as the verified routes' state goes: optional metadata fields, plus an optional
full replacement of the size list.  (Category/manufacturer reference updates
only touch the omitted reference columns.) -/
structure UpdateReq where
  title : Option String
  code : Option String
  price : Option Int
  image : Option String
  fullSizeImage : Option String
  isVisible : Option Bool
  sizes : Option (List (String × Int))
deriving DecidableEq

/-- Errors of `PUT /api/products/:uuid` (HTTP 400/404 answers; the
duplicate-size-key case is the SQL `uq_product_size` violation caught by the
route's catch block, which rolls back). -/
inductive UpdateError where
  | invalidSizes : UpdateError
  | productNotFound : UpdateError
  | duplicateCode : UpdateError
  | duplicateSizeKey : UpdateError
deriving DecidableEq

/-- The pre-transaction `parsedSizes` validation of `PUT /api/products/:uuid`
(lines 331–340): every entry must have `stock >= 0`. -/
def sizesValid : Option (List (String × Int)) → Bool
  | none => true
  | some l => l.all (fun sp => decide (0 ≤ sp.snd))

/-- `PUT /api/products/:uuid` (`products.js` lines 326–424): validates the
size list, resolves the product, rejects a duplicate code, updates exactly
the supplied metadata fields, and (when `sizes` is supplied) deletes and
re-inserts the product's size rows verbatim.  It never touches `sales` or
`sale_items`. -/
def updateProduct (st : Store) (productUuid : String) (req : UpdateReq) :
    Store × Option UpdateError :=
  if !(sizesValid req.sizes) then (st, some UpdateError.invalidSizes)
  else
    match findProduct st.products productUuid with
    | none => (st, some UpdateError.productNotFound)
    | some p =>
      let codeClash : Bool :=
        match req.code with
        | some c =>
          truthy c &&
            st.products.any (fun q => q.code == c.trim && !(q.uuid == productUuid))
        | none => false
      if codeClash then (st, some UpdateError.duplicateCode)
      else
        let p2 : ProductRow :=
          { p with
            title := (match req.title with | some v => v.trim | none => p.title),
            code := (match req.code with | some v => v.trim | none => p.code),
            price := (match req.price with | some v => v | none => p.price),
            image := (match req.image with | some v => v.trim | none => p.image),
            full_size_image :=
              (match req.fullSizeImage with
               | some v => v.trim
               | none => p.full_size_image),
            isVisible :=
              (match req.isVisible with | some v => v | none => p.isVisible) }
        let products2 := st.products.map
          (fun q => if q.product_id == p.product_id then p2 else q)
        match req.sizes with
        | none => ({ st with products := products2 }, none)
        | some l =>
          if hasDupNames l then (st, some UpdateError.duplicateSizeKey)
          else
            ({ st with
                products := products2,
                product_sizes :=
                  (deleteSizes st.product_sizes p.product_id ++
                    l.map (fun sp =>
                      { product_id := p.product_id, size_name := sp.fst,
                        stock := sp.snd })) }, none)

/-- One iteration of the loop of `DELETE /api/sales/bulk-delete`
(`sales.js` lines 286–296): resolve the uuid (a miss only logs a warning and
continues), then delete the sale's line items and its header. -/
def deleteSaleOnce (st : Store) (saleUuid : String) : Store :=
  match st.sales.find? (fun s => s.uuid == saleUuid) with
  | none => st
  | some s =>
    { st with
      sale_items := st.sale_items.filter (fun it => !(it.sale_id == s.sale_id)),
      sales := st.sales.filter (fun r => !(r.sale_id == s.sale_id)) }

/-- `DELETE /api/sales/bulk-delete` (`sales.js` lines 270–308).  An empty id
list is rejected before the transaction; otherwise each id is processed by
`deleteSaleOnce`.  The route never touches `products` or `product_sizes`. -/
def bulkDeleteSales (st : Store) (saleIds : List String) : Store :=
  if saleIds.isEmpty then st
  else saleIds.foldl deleteSaleOnce st

/-- A manual cart line as the frontend holds it (fields of the `SaleItem`
type used by `submitSaleToHistory` in the frontend service file). -/
structure FrontManualItem where
  manualTitle : String
  manualCode : String
  manualSelectedSize : String
  manualQuantity : Int
  manualPrice : Int
  manualDiscount : Int
deriving DecidableEq

/-- The wire item built by the frontend `submitSaleToHistory` for a manual
cart line: the price travels in `unitPrice`, the computed
`manualPrice * manualQuantity - manualDiscount` travels in `finalPrice`, and
no `manualPrice` key is sent at all. -/
def submitSalePayloadManual (m : FrontManualItem) : ReqItem :=
  { isManual := true, productId := "",
    title := strOr m.manualTitle "Manual Item",
    code := strOr m.manualCode "N/A",
    image := "", fullSizeImage := "",
    selectedSize := strOr m.manualSelectedSize "N/A",
    quantity := m.manualQuantity,
    unitPrice := m.manualPrice,
    discount := m.manualDiscount,
    finalPrice := m.manualPrice * m.manualQuantity - m.manualDiscount,
    manualPrice := none }

/-- A stock-mutating operation: a call of the stock route, or a sale commit
(whose catalog branch performs the in-transaction sell decrements). -/
inductive StockOp where
  | adjust : String → StockReq → StockOp
  | sale : String → List ReqItem → Int → String → String → StockOp
deriving DecidableEq

/-- The store an operation leaves behind (an error answer leaves the store
the transaction rolled back to). -/
def applyOp (st : Store) : StockOp → Store
  | StockOp.adjust u req => (adjustStock st u req).1
  | StockOp.sale u items t pm nt => (commitSale st u items t pm nt).1

/-- Run a sequence of stock-mutating operations. -/
def runOps (st : Store) (ops : List StockOp) : Store := ops.foldl applyOp st

/-- The key of the `uq_product_size` unique constraint. -/
def sizeKey (r : SizeRow) : Nat × String := (r.product_id, r.size_name)

/-- The `uq_product_size` UNIQUE constraint of `db_schema.sql`: no two
`product_sizes` rows share a `(product_id, size_name)` key. -/
def keysNodup (rows : List SizeRow) : Prop := (rows.map sizeKey).Nodup

instance (rows : List SizeRow) : Decidable (keysNodup rows) := by
  unfold keysNodup; infer_instance

/-- Every stock counter is non-negative. -/
def stocksNonneg (rows : List SizeRow) : Prop := ∀ r ∈ rows, 0 ≤ r.stock

instance (rows : List SizeRow) : Decidable (stocksNonneg rows) := by
  unfold stocksNonneg; infer_instance

/-! ## Helper lemmas about the sale item loop -/

theorem stockCheck_error_iff (cur : Store) (pid : Nat) (item : ReqItem)
    (e : SaleError) (h : stockCheck cur pid item = Except.error e) :
    ∃ r, findSize cur.product_sizes pid item.selectedSize = some r ∧
      r.stock < item.quantity ∧
      e = SaleError.insufficientStock item.title item.selectedSize r.stock
        item.quantity := by
  unfold stockCheck at h
  by_cases ht : truthy item.selectedSize
  · rw [if_pos ht] at h
    cases hf : findSize cur.product_sizes pid item.selectedSize with
    | none => simp only [hf] at h; cases h
    | some r =>
      simp only [hf] at h
      by_cases hq : item.quantity ≤ r.stock
      · rw [if_pos hq] at h; cases h
      · rw [if_neg hq] at h
        refine ⟨r, rfl, lt_of_not_le hq, ?_⟩
        cases h
        rfl
  · rw [if_neg ht] at h; cases h

theorem stockCheck_ok_products (cur : Store) (pid : Nat) (item : ReqItem)
    (cur2 : Store) (h : stockCheck cur pid item = Except.ok cur2) :
    cur2.products = cur.products := by
  unfold stockCheck at h
  by_cases ht : truthy item.selectedSize
  · rw [if_pos ht] at h
    cases hf : findSize cur.product_sizes pid item.selectedSize with
    | none => simp only [hf] at h; cases h; rfl
    | some r =>
      simp only [hf] at h
      by_cases hq : item.quantity ≤ r.stock
      · rw [if_pos hq] at h; cases h; rfl
      · rw [if_neg hq] at h; cases h
  · rw [if_neg ht] at h; cases h; rfl

theorem saleItemStep_ok_products (saleId : Nat) (cur : Store) (item : ReqItem)
    (cur2 : Store) (h : saleItemStep saleId cur item = Except.ok cur2) :
    cur2.products = cur.products := by
  unfold saleItemStep at h
  by_cases hm : item.isManual
  · rw [if_pos hm] at h; cases h; rfl
  · rw [if_neg hm] at h
    cases hf : findProduct cur.products item.productId with
    | none => simp only [hf] at h; cases h
    | some p =>
      simp only [hf] at h
      cases hc : stockCheck cur p.product_id item with
      | error e => simp only [hc] at h; cases h
      | ok cur1 =>
        simp only [hc] at h
        cases h
        exact stockCheck_ok_products cur p.product_id item cur1 hc

theorem saleItemStep_error_insufficient (saleId : Nat) (cur : Store)
    (item : ReqItem) (ti sz : String) (avail req : Int)
    (h : saleItemStep saleId cur item =
      Except.error (SaleError.insufficientStock ti sz avail req)) :
    item.isManual = false ∧ item.title = ti ∧ item.selectedSize = sz ∧
      item.quantity = req ∧ avail < req := by
  unfold saleItemStep at h
  by_cases hm : item.isManual
  · rw [if_pos hm] at h; cases h
  · rw [if_neg hm] at h
    cases hf : findProduct cur.products item.productId with
    | none => simp only [hf] at h; cases h
    | some p =>
      simp only [hf] at h
      cases hc : stockCheck cur p.product_id item with
      | error e =>
        simp only [hc] at h
        cases h
        obtain ⟨r, _, hlt, he⟩ :=
          stockCheck_error_iff cur p.product_id item _ hc
        cases he
        exact ⟨Bool.eq_false_iff.mpr hm, rfl, rfl, rfl, hlt⟩
      | ok cur1 => simp only [hc] at h; cases h

theorem saleItemStep_error_notFound (saleId : Nat) (cur : Store)
    (item : ReqItem) (pid : String)
    (h : saleItemStep saleId cur item =
      Except.error (SaleError.productNotFound pid)) :
    item.isManual = false ∧ item.productId = pid ∧
      findProduct cur.products pid = none := by
  unfold saleItemStep at h
  by_cases hm : item.isManual
  · rw [if_pos hm] at h; cases h
  · rw [if_neg hm] at h
    cases hf : findProduct cur.products item.productId with
    | none =>
      simp only [hf] at h
      cases h
      exact ⟨Bool.eq_false_iff.mpr hm, rfl, hf⟩
    | some p =>
      simp only [hf] at h
      cases hc : stockCheck cur p.product_id item with
      | error e =>
        simp only [hc] at h
        cases h
        obtain ⟨r, _, _, he⟩ := stockCheck_error_iff cur p.product_id item _ hc
        cases he
      | ok cur1 => simp only [hc] at h; cases h

theorem saleItemsLoop_error_insufficient (saleId : Nat) (cur : Store)
    (items : List ReqItem) (ti sz : String) (avail req : Int)
    (h : saleItemsLoop saleId cur items =
      Except.error (SaleError.insufficientStock ti sz avail req)) :
    avail < req ∧ ∃ it ∈ items, it.isManual = false ∧ it.title = ti ∧
      it.selectedSize = sz ∧ it.quantity = req := by
  induction items generalizing cur with
  | nil => rw [saleItemsLoop] at h; cases h
  | cons item rest ih =>
    rw [saleItemsLoop] at h
    cases hs : saleItemStep saleId cur item with
    | error e =>
      simp only [hs] at h
      cases h
      obtain ⟨h1, h2, h3, h4, h5⟩ :=
        saleItemStep_error_insufficient saleId cur item ti sz avail req hs
      exact ⟨h5, item, List.mem_cons_self item rest, h1, h2, h3, h4⟩
    | ok cur2 =>
      simp only [hs] at h
      obtain ⟨h1, it, hmem, hrest⟩ := ih cur2 h
      exact ⟨h1, it, List.mem_cons_of_mem item hmem, hrest⟩

theorem saleItemsLoop_error_notFound (saleId : Nat) (cur : Store)
    (items : List ReqItem) (pid : String)
    (h : saleItemsLoop saleId cur items =
      Except.error (SaleError.productNotFound pid)) :
    ∃ it ∈ items, it.isManual = false ∧ it.productId = pid ∧
      findProduct cur.products pid = none := by
  induction items generalizing cur with
  | nil => rw [saleItemsLoop] at h; cases h
  | cons item rest ih =>
    rw [saleItemsLoop] at h
    cases hs : saleItemStep saleId cur item with
    | error e =>
      simp only [hs] at h
      cases h
      obtain ⟨h1, h2, h3⟩ := saleItemStep_error_notFound saleId cur item pid hs
      exact ⟨item, List.mem_cons_self item rest, h1, h2, h3⟩
    | ok cur2 =>
      simp only [hs] at h
      obtain ⟨it, hmem, h1, h2, h3⟩ := ih cur2 h
      rw [saleItemStep_ok_products saleId cur item cur2 hs] at h3
      exact ⟨it, List.mem_cons_of_mem item hmem, h1, h2, h3⟩

/-! ## Helper lemmas about the stock well-formedness invariant -/

theorem sizeKey_ite (c : Prop) [Decidable c] (r : SizeRow) (v : Int) :
    sizeKey (if c then { r with stock := v } else r) = sizeKey r := by
  split <;> rfl

theorem keysNodup_map (rows : List SizeRow) (f : SizeRow → SizeRow)
    (hf : ∀ r, sizeKey (f r) = sizeKey r) (h : keysNodup rows) :
    keysNodup (rows.map f) := by
  unfold keysNodup at h ⊢
  rw [List.map_map]
  have he : ∀ r ∈ rows, (sizeKey ∘ f) r = sizeKey r := fun r _ => hf r
  rw [List.map_congr_left he]
  exact h

theorem keysNodup_decStock (rows : List SizeRow) (pid : Nat) (size : String)
    (q : Int) (h : keysNodup rows) : keysNodup (decStock rows pid size q) :=
  keysNodup_map rows _ (fun r => sizeKey_ite _ r _) h

theorem keysNodup_setStock (rows : List SizeRow) (pid : Nat) (size : String)
    (v : Int) (h : keysNodup rows) : keysNodup (setStock rows pid size v) :=
  keysNodup_map rows _ (fun r => sizeKey_ite _ r _) h

theorem stocksNonneg_setStock (rows : List SizeRow) (pid : Nat) (size : String)
    (v : Int) (hv : 0 ≤ v) (hn : stocksNonneg rows) :
    stocksNonneg (setStock rows pid size v) := by
  intro r hr
  rw [setStock, List.mem_map] at hr
  obtain ⟨a, ha, rfl⟩ := hr
  split
  · exact hv
  · exact hn a ha

theorem stocksNonneg_decStock (rows : List SizeRow) (pid : Nat) (size : String)
    (q : Int) (r0 : SizeRow) (hu : keysNodup rows) (hn : stocksNonneg rows)
    (hf : findSize rows pid size = some r0) (hq : q ≤ r0.stock) :
    stocksNonneg (decStock rows pid size q) := by
  unfold findSize at hf
  intro r hr
  rw [decStock, List.mem_map] at hr
  obtain ⟨a, ha, rfl⟩ := hr
  by_cases hc : (a.product_id == pid && a.size_name == size) = true
  · have hmem0 : r0 ∈ rows := List.mem_of_find?_eq_some hf
    have hp0 := List.find?_some hf
    have hkey : sizeKey a = sizeKey r0 := by
      simp only [Bool.and_eq_true, beq_iff_eq] at hc hp0
      simp [sizeKey, hc.1, hc.2, hp0.1, hp0.2]
    have ha0 : a = r0 := List.inj_on_of_nodup_map hu ha hmem0 hkey
    subst ha0
    rw [if_pos hc]
    have := hn a ha
    simp only
    omega
  · rw [if_neg hc]
    exact hn a ha

theorem stocksNonneg_append (a b : List SizeRow) (ha : stocksNonneg a)
    (hb : stocksNonneg b) : stocksNonneg (a ++ b) := by
  intro r hr
  rcases List.mem_append.mp hr with h | h
  · exact ha r h
  · exact hb r h

theorem stocksNonneg_deleteSizes (rows : List SizeRow) (pid : Nat)
    (hn : stocksNonneg rows) : stocksNonneg (deleteSizes rows pid) :=
  fun r hr => hn r (List.mem_of_mem_filter hr)

theorem keysNodup_deleteSizes (rows : List SizeRow) (pid : Nat)
    (hu : keysNodup rows) : keysNodup (deleteSizes rows pid) :=
  List.Nodup.sublist (List.Sublist.map sizeKey (List.filter_sublist rows)) hu

theorem names_nodup_of_not_hasDupNames (l : List (String × Int))
    (h : hasDupNames l = false) : (l.map Prod.fst).Nodup := by
  induction l with
  | nil => simp
  | cons sp rest ih =>
    cases sp with
    | mk s v =>
      rw [hasDupNames, Bool.or_eq_false_iff] at h
      rw [List.map_cons, List.nodup_cons]
      refine ⟨?_, ih h.2⟩
      intro hmem
      rw [List.mem_map] at hmem
      obtain ⟨p, hp, hps⟩ := hmem
      have := List.any_eq_false.mp h.1 p hp
      simp only [beq_iff_eq] at this
      exact this hps

theorem keysNodup_replace (rows : List SizeRow) (pid : Nat)
    (l : List (String × Int)) (g : Int → Int) (hu : keysNodup rows)
    (hl : hasDupNames l = false) :
    keysNodup (deleteSizes rows pid ++
      l.map (fun sp =>
        { product_id := pid, size_name := sp.fst, stock := g sp.snd })) := by
  unfold keysNodup
  rw [List.map_append, List.nodup_append]
  refine ⟨keysNodup_deleteSizes rows pid hu, ?_, ?_⟩
  · rw [List.map_map]
    have : (sizeKey ∘ fun sp : String × Int =>
        ({ product_id := pid, size_name := sp.fst, stock := g sp.snd } :
          SizeRow)) = (fun sp : String × Int => (pid, sp.fst)) := by
      funext sp
      rfl
    rw [this]
    have hnames := names_nodup_of_not_hasDupNames l hl
    have : (fun sp : String × Int => (pid, sp.fst)) =
        ((fun s => (pid, s)) ∘ Prod.fst) := rfl
    rw [this, ← List.map_map]
    exact hnames.map (fun a b hab => congrArg Prod.snd hab)
  · rw [List.disjoint_left]
    intro k hk1 hk2
    rw [List.mem_map] at hk1 hk2
    obtain ⟨r, hr, rfl⟩ := hk1
    obtain ⟨a, hal, hsp⟩ := hk2
    obtain ⟨sp, _, rfl⟩ := List.mem_map.mp hal
    unfold deleteSizes at hr
    have hrp := (List.mem_filter.mp hr).2
    have : r.product_id = pid := by
      have := congrArg Prod.fst hsp
      simpa [sizeKey] using this.symm
    simp [this] at hrp

theorem stocksNonneg_replace (rows : List SizeRow) (pid : Nat)
    (l : List (String × Int)) (hn : stocksNonneg rows) :
    stocksNonneg (deleteSizes rows pid ++
      l.map (fun sp =>
        { product_id := pid, size_name := sp.fst, stock := clamp0 sp.snd })) := by
  refine stocksNonneg_append _ _ (stocksNonneg_deleteSizes rows pid hn) ?_
  intro r hr
  rw [List.mem_map] at hr
  obtain ⟨sp, _, rfl⟩ := hr
  exact le_max_left 0 sp.snd

theorem WF_upsertSize (rows : List SizeRow) (pid : Nat) (size : String)
    (v : Int) (hv : 0 ≤ v) (hu : keysNodup rows) (hn : stocksNonneg rows) :
    keysNodup (upsertSize rows pid size v) ∧
      stocksNonneg (upsertSize rows pid size v) := by
  unfold upsertSize
  cases hf : findSize rows pid size with
  | some r =>
    exact ⟨keysNodup_setStock rows pid size v hu,
      stocksNonneg_setStock rows pid size v hv hn⟩
  | none =>
    constructor
    · unfold keysNodup
      rw [List.map_append, List.nodup_append]
      refine ⟨hu, List.nodup_singleton _, ?_⟩
      rw [List.disjoint_left]
      intro k hk1 hk2
      rw [List.mem_map] at hk1
      obtain ⟨r, hr, rfl⟩ := hk1
      simp only [List.map_cons, List.map_nil, List.mem_singleton] at hk2
      unfold findSize at hf
      have := List.find?_eq_none.mp hf r hr
      simp only [Bool.and_eq_true, beq_iff_eq, not_and] at this
      have h1 : r.product_id = pid := congrArg Prod.fst hk2
      have h2 : r.size_name = size := congrArg Prod.snd hk2
      exact this h1 h2
    · refine stocksNonneg_append _ _ hn ?_
      intro r hr
      rw [List.mem_singleton] at hr
      subst hr
      exact hv

theorem adjustStock_WF (st : Store) (u : String) (req : StockReq)
    (hu : keysNodup st.product_sizes) (hn : stocksNonneg st.product_sizes) :
    keysNodup (adjustStock st u req).1.product_sizes ∧
      stocksNonneg (adjustStock st u req).1.product_sizes := by
  cases req with
  | replaceAll sizes =>
    cases hp : findProduct st.products u with
    | none => simp only [adjustStock, hp]; exact ⟨hu, hn⟩
    | some p =>
      simp only [adjustStock, hp]
      split
      next hd => exact ⟨hu, hn⟩
      next hd =>
        exact ⟨keysNodup_replace st.product_sizes p.product_id sizes clamp0
            hu (Bool.eq_false_iff.mpr hd),
          stocksNonneg_replace st.product_sizes p.product_id sizes hn⟩
  | sell sizeName newStock =>
    cases hp : findProduct st.products u with
    | none => simp only [adjustStock, hp]; exact ⟨hu, hn⟩
    | some p =>
      simp only [adjustStock, hp]
      split
      next hq => exact ⟨hu, hn⟩
      next hq =>
        cases hf : findSize st.product_sizes p.product_id sizeName with
        | none => simp only [hf]; exact ⟨hu, hn⟩
        | some r =>
          simp only [hf]
          split
          next hlt =>
            exact ⟨keysNodup_setStock _ _ _ _ hu,
              stocksNonneg_setStock _ _ _ _ le_rfl hn⟩
          next hlt =>
            exact ⟨keysNodup_decStock _ _ _ _ hu,
              stocksNonneg_decStock _ _ _ _ r hu hn hf (not_lt.mp hlt)⟩
  | setAbsolute sizeName newStock =>
    cases hp : findProduct st.products u with
    | none => simp only [adjustStock, hp]; exact ⟨hu, hn⟩
    | some p =>
      simp only [adjustStock, hp]
      exact WF_upsertSize st.product_sizes p.product_id sizeName
        (clamp0 newStock) (le_max_left 0 newStock) hu hn

theorem stockCheck_WF (cur : Store) (pid : Nat) (item : ReqItem) (cur2 : Store)
    (h : stockCheck cur pid item = Except.ok cur2)
    (hu : keysNodup cur.product_sizes) (hn : stocksNonneg cur.product_sizes) :
    keysNodup cur2.product_sizes ∧ stocksNonneg cur2.product_sizes := by
  unfold stockCheck at h
  by_cases ht : truthy item.selectedSize
  · rw [if_pos ht] at h
    cases hf : findSize cur.product_sizes pid item.selectedSize with
    | none => simp only [hf] at h; cases h; exact ⟨hu, hn⟩
    | some r =>
      simp only [hf] at h
      by_cases hq : item.quantity ≤ r.stock
      · rw [if_pos hq] at h
        cases h
        exact ⟨keysNodup_decStock _ _ _ _ hu,
          stocksNonneg_decStock _ _ _ _ r hu hn hf hq⟩
      · rw [if_neg hq] at h
        cases h
  · rw [if_neg ht] at h
    cases h
    exact ⟨hu, hn⟩

theorem saleItemStep_WF (saleId : Nat) (cur : Store) (item : ReqItem)
    (cur2 : Store) (h : saleItemStep saleId cur item = Except.ok cur2)
    (hu : keysNodup cur.product_sizes) (hn : stocksNonneg cur.product_sizes) :
    keysNodup cur2.product_sizes ∧ stocksNonneg cur2.product_sizes := by
  unfold saleItemStep at h
  by_cases hm : item.isManual
  · rw [if_pos hm] at h
    cases h
    exact ⟨hu, hn⟩
  · rw [if_neg hm] at h
    cases hf : findProduct cur.products item.productId with
    | none => simp only [hf] at h; cases h
    | some p =>
      simp only [hf] at h
      cases hc : stockCheck cur p.product_id item with
      | error e => simp only [hc] at h; cases h
      | ok cur1 =>
        simp only [hc] at h
        cases h
        exact stockCheck_WF cur p.product_id item cur1 hc hu hn

theorem saleItemsLoop_WF (saleId : Nat) (cur : Store) (items : List ReqItem)
    (st2 : Store) (h : saleItemsLoop saleId cur items = Except.ok st2)
    (hu : keysNodup cur.product_sizes) (hn : stocksNonneg cur.product_sizes) :
    keysNodup st2.product_sizes ∧ stocksNonneg st2.product_sizes := by
  induction items generalizing cur with
  | nil => rw [saleItemsLoop] at h; cases h; exact ⟨hu, hn⟩
  | cons item rest ih =>
    rw [saleItemsLoop] at h
    cases hs : saleItemStep saleId cur item with
    | error e => simp only [hs] at h; cases h
    | ok cur2 =>
      simp only [hs] at h
      obtain ⟨hu2, hn2⟩ := saleItemStep_WF saleId cur item cur2 hs hu hn
      exact ih cur2 h hu2 hn2

theorem commitSale_WF (st : Store) (u : String) (items : List ReqItem)
    (t : Int) (pm nt : String) (hu : keysNodup st.product_sizes)
    (hn : stocksNonneg st.product_sizes) :
    keysNodup (commitSale st u items t pm nt).1.product_sizes ∧
      stocksNonneg (commitSale st u items t pm nt).1.product_sizes := by
  unfold commitSale
  split
  · exact ⟨hu, hn⟩
  · cases hl : saleItemsLoop st.nextSaleId
        { st with
          sales := st.sales ++ [saleHeaderRow st.nextSaleId u t pm nt],
          nextSaleId := st.nextSaleId + 1 } items with
    | ok st2 =>
      simp only [hl]
      exact saleItemsLoop_WF _ _ items st2 hl hu hn
    | error e =>
      simp only [hl]
      exact ⟨hu, hn⟩

theorem applyOp_WF (st : Store) (op : StockOp)
    (hu : keysNodup st.product_sizes) (hn : stocksNonneg st.product_sizes) :
    keysNodup (applyOp st op).product_sizes ∧
      stocksNonneg (applyOp st op).product_sizes := by
  cases op with
  | adjust u req => exact adjustStock_WF st u req hu hn
  | sale u items t pm nt => exact commitSale_WF st u items t pm nt hu hn

theorem runOps_WF (st : Store) (ops : List StockOp)
    (hu : keysNodup st.product_sizes) (hn : stocksNonneg st.product_sizes) :
    keysNodup (runOps st ops).product_sizes ∧
      stocksNonneg (runOps st ops).product_sizes := by
  induction ops generalizing st with
  | nil => exact ⟨hu, hn⟩
  | cons op rest ih =>
    obtain ⟨hu1, hn1⟩ := applyOp_WF st op hu hn
    exact ih (applyOp st op) hu1 hn1

/-! ## Helper lemmas for the bulk-replace path -/

theorem deleteSizes_append (a b : List SizeRow) (pid : Nat) :
    deleteSizes (a ++ b) pid = deleteSizes a pid ++ deleteSizes b pid := by
  unfold deleteSizes
  rw [List.filter_append]

theorem deleteSizes_idem (rows : List SizeRow) (pid : Nat) :
    deleteSizes (deleteSizes rows pid) pid = deleteSizes rows pid := by
  unfold deleteSizes
  rw [List.filter_filter]
  simp only [Bool.and_self]

theorem deleteSizes_new_nil (pid : Nat) (l : List (String × Int))
    (g : Int → Int) :
    deleteSizes (l.map (fun sp =>
      { product_id := pid, size_name := sp.fst, stock := g sp.snd })) pid = [] := by
  induction l with
  | nil => rfl
  | cons sp rest ih =>
    rw [List.map_cons]
    unfold deleteSizes at ih ⊢
    rw [List.filter_cons]
    simp only [beq_self_eq_true, Bool.not_true, ite_false]
    exact ih

/-! ## Claim theorems -/

/-- C1: for every `commitSale` call that answers with the
insufficient-stock error, the error names a catalog line item of the request
(its product title, size and requested quantity) together with an available
quantity strictly below the requested one, and the resulting store is exactly
the pre-call store: no sale header, no line items and no stock decrement
survive, including those of earlier items that individually had enough
stock. -/
theorem commitSale_insufficientStock_atomicity
    (st : Store) (u : String) (items : List ReqItem) (t : Int) (pm nt : String)
    (ti sz : String) (avail req : Int)
    (h : (commitSale st u items t pm nt).2 =
      some (SaleError.insufficientStock ti sz avail req)) :
    (commitSale st u items t pm nt).1 = st ∧ avail < req ∧
      ∃ it ∈ items, it.isManual = false ∧ it.title = ti ∧
        it.selectedSize = sz ∧ it.quantity = req := by
  by_cases hv : (items.isEmpty || !(truthy pm)) = true
  · unfold commitSale at h
    rw [if_pos hv] at h
    simp at h
  · unfold commitSale at h ⊢
    rw [if_neg hv] at h ⊢
    cases hl : saleItemsLoop st.nextSaleId
        { st with
          sales := st.sales ++ [saleHeaderRow st.nextSaleId u t pm nt],
          nextSaleId := st.nextSaleId + 1 } items with
    | ok st2 => simp only [hl] at h; simp at h
    | error e =>
      simp only [hl] at h
      simp only [Option.some.injEq] at h
      subst h
      refine ⟨by simp only [hl], ?_⟩
      exact saleItemsLoop_error_insufficient _ _ items ti sz avail req hl

/-- C1 witness: a concrete two-item sale — item 1 sells 3 of size "M"
(stock 5, enough on its own, decremented inside the transaction), item 2
requests 3 more (only 2 left) — fails with the insufficient-stock error
naming "Shirt", "M", available 2, requested 3, and the final store equals the
initial one (stock back at 5, no sale rows). -/
theorem commitSale_insufficientStock_atomicity_witness :
    let st : Store := ⟨[⟨1, "p1", "Shirt", "S1", 10, "", "", true⟩],
      [⟨1, "M", 5⟩], [], [], 1⟩
    let items : List ReqItem :=
      [⟨false, "p1", "Shirt", "S1", "", "", "M", 3, 10, 0, 30, none⟩,
       ⟨false, "p1", "Shirt", "S1", "", "", "M", 3, 10, 0, 30, none⟩]
    (commitSale st "sale_1" items 60 "CASH" "").2 =
        some (SaleError.insufficientStock "Shirt" "M" 2 3) ∧
      (commitSale st "sale_1" items 60 "CASH" "").1 = st := by
  intro st items
  exact ⟨by decide,
    (commitSale_insufficientStock_atomicity st "sale_1" items 60 "CASH" ""
      "Shirt" "M" 2 3 (by decide)).1⟩

/-- C6: for every `commitSale` call that answers with the product-not-found
error, the offending id belongs to a catalog line item of the request, no
product row carries that id, and the resulting store is exactly the pre-call
store — in particular stock decrements already applied for earlier valid
items of the same sale are undone, leaving zero net stock change. -/
theorem commitSale_productNotFound_atomicity
    (st : Store) (u : String) (items : List ReqItem) (t : Int) (pm nt : String)
    (pid : String)
    (h : (commitSale st u items t pm nt).2 =
      some (SaleError.productNotFound pid)) :
    (commitSale st u items t pm nt).1 = st ∧
      ∃ it ∈ items, it.isManual = false ∧ it.productId = pid ∧
        findProduct st.products pid = none := by
  by_cases hv : (items.isEmpty || !(truthy pm)) = true
  · unfold commitSale at h
    rw [if_pos hv] at h
    simp at h
  · unfold commitSale at h ⊢
    rw [if_neg hv] at h ⊢
    cases hl : saleItemsLoop st.nextSaleId
        { st with
          sales := st.sales ++ [saleHeaderRow st.nextSaleId u t pm nt],
          nextSaleId := st.nextSaleId + 1 } items with
    | ok st2 => simp only [hl] at h; simp at h
    | error e =>
      simp only [hl] at h
      simp only [Option.some.injEq] at h
      subst h
      refine ⟨by simp only [hl], ?_⟩
      have hres := saleItemsLoop_error_notFound _ _ items pid hl
      exact hres

/-- C6 witness: the spec's example scenario — item A (catalog, size "M",
quantity 1, stock 5, individually fine) followed by item B referencing the
nonexistent id "ghost" — fails with the product-not-found error for "ghost"
and leaves the store unchanged: zero net stock change for item A's
product. -/
theorem commitSale_productNotFound_atomicity_witness :
    let st : Store := ⟨[⟨1, "p1", "Shirt", "S1", 10, "", "", true⟩],
      [⟨1, "M", 5⟩], [], [], 1⟩
    let items : List ReqItem :=
      [⟨false, "p1", "Shirt", "S1", "", "", "M", 1, 10, 0, 10, none⟩,
       ⟨false, "ghost", "Gone", "G1", "", "", "M", 1, 5, 0, 5, none⟩]
    (commitSale st "sale_1" items 15 "CASH" "").2 =
        some (SaleError.productNotFound "ghost") ∧
      (commitSale st "sale_1" items 15 "CASH" "").1 = st := by
  intro st items
  exact ⟨by decide,
    (commitSale_productNotFound_atomicity st "sale_1" items 15 "CASH" ""
      "ghost" (by decide)).1⟩

/-- C3 (code behavior at the claim's failing input): a sell-mode stock
adjustment requesting 2 units of size "M" whose current stock is 1 is NOT
rejected — the route answers success (`none`) and silently clamps the stock
to 0, instead of failing hard and leaving the stock at 1 as the claim
states. -/
theorem adjustStock_sell_clamps_to_zero :
    adjustStock
      ⟨[⟨1, "p1", "Shirt", "S1", 10, "", "", true⟩], [⟨1, "M", 1⟩], [], [], 1⟩
      "p1" (StockReq.sell "M" 2) =
    (⟨[⟨1, "p1", "Shirt", "S1", 10, "", "", true⟩], [⟨1, "M", 0⟩], [], [], 1⟩,
     none) := by decide

/-- C4 (code behavior at the claim's failing input): a manual line item
submitted through the repository's own frontend payload (manual price 10,
quantity 2, discount 0) commits successfully, but the persisted row stores
`unit_price = 10`, `quantity = 2`, `discount = 0` and `final_price = 0`,
because the backend recomputes the manual final price from the absent
`manualPrice` request key — so `final_price ≠ unit_price × quantity −
discount` (0 ≠ 20). -/
theorem commitSale_manual_final_price_bug :
    let st : Store := ⟨[], [], [], [], 1⟩
    let res := commitSale st "sale_1"
      [submitSalePayloadManual ⟨"Custom", "C1", "M", 2, 10, 0⟩] 20 "CASH" ""
    res.2 = none ∧
      res.1.sale_items =
        [⟨1, none, none, "Custom", "C1", "", "", "M", 2, 10, 0, 0⟩] ∧
      ∀ r ∈ res.1.sale_items,
        r.final_price ≠ r.unit_price * r.quantity - r.discount := by decide

/-- C5: starting from any store whose `product_sizes` table satisfies its
`uq_product_size` uniqueness constraint and has every stock ≥ 0, any
sequence of stock operations — bulk `replaceAll`, `setAbsolute`, sell-mode
adjustments, and sale commits (whose catalog branch performs the sell
decrement) — leaves every per-size stock ≥ 0: replace/set clamp negative
inputs to zero, and a sell never drives stock below zero. -/
theorem stock_nonneg_invariant (st : Store) (ops : List StockOp)
    (hu : keysNodup st.product_sizes) (hn : stocksNonneg st.product_sizes) :
    stocksNonneg (runOps st ops).product_sizes :=
  (runOps_WF st ops hu hn).2

/-- C5 witness: a concrete store (one product, sizes "M": 2 and "L": 0) and
a concrete operation sequence — bulk replace (with a negative input), a
clamped sell, an absolute set with a negative value, and a sale commit —
ends with every stock ≥ 0. -/
theorem stock_nonneg_invariant_witness :
    let st : Store := ⟨[⟨1, "p1", "Shirt", "S1", 10, "", "", true⟩],
      [⟨1, "M", 2⟩, ⟨1, "L", 0⟩], [], [], 1⟩
    let ops : List StockOp :=
      [StockOp.adjust "p1" (StockReq.replaceAll [("M", 3), ("L", -4)]),
       StockOp.adjust "p1" (StockReq.sell "M" 5),
       StockOp.adjust "p1" (StockReq.setAbsolute "L" (-2)),
       StockOp.sale "sale_1"
         [⟨false, "p1", "Shirt", "S1", "", "", "M", 1, 10, 0, 10, none⟩]
         10 "CASH" ""]
    stocksNonneg (runOps st ops).product_sizes := by
  intro st ops
  exact stock_nonneg_invariant st ops (by decide) (by decide)

/-- C7: calling the bulk `replaceAll` stock adjustment twice in succession
with the same size/stock list leaves exactly the same store as calling it
once (the second delete-all-then-reinsert removes precisely the rows the
first one inserted and re-inserts them verbatim; error answers leave the
store untouched and repeat identically). -/
theorem replaceAll_twice_eq_once (st : Store) (u : String)
    (l : List (String × Int)) :
    applyOp (applyOp st (StockOp.adjust u (StockReq.replaceAll l)))
        (StockOp.adjust u (StockReq.replaceAll l)) =
      applyOp st (StockOp.adjust u (StockReq.replaceAll l)) := by
  simp only [applyOp]
  cases hp : findProduct st.products u with
  | none => simp only [adjustStock, hp]
  | some p =>
    by_cases hd : hasDupNames l = true
    · simp only [adjustStock, hp, if_pos hd]
    · simp only [adjustStock, hp, if_neg hd]
      rw [deleteSizes_append, deleteSizes_idem, deleteSizes_new_nil,
        List.append_nil]

/-- C8: the product-update route never touches the sale ledger — for every
store and every update request (title, code, price, images, visibility,
size-list replacement, in any combination, whether it succeeds or fails),
the stored `sale_items` snapshot rows (title, code, image, selected size,
unit price, discount, final price) and `sales` headers afterwards are
exactly the ones stored before.  In particular, editing a product's title,
price or image after a sale was committed does not change that sale's
line-item snapshot. -/
theorem updateProduct_preserves_sale_snapshots (st : Store) (u : String)
    (req : UpdateReq) :
    (updateProduct st u req).1.sale_items = st.sale_items ∧
      (updateProduct st u req).1.sales = st.sales := by
  unfold updateProduct
  split
  · exact ⟨rfl, rfl⟩
  · cases hp : findProduct st.products u with
    | none => exact ⟨rfl, rfl⟩
    | some p =>
      simp only
      split
      · exact ⟨rfl, rfl⟩
      · cases hq : req.sizes with
        | none => exact ⟨rfl, rfl⟩
        | some lsz =>
          simp only
          split
          · exact ⟨rfl, rfl⟩
          · exact ⟨rfl, rfl⟩

/-- C9: deleting a sale through the admin bulk-delete route removes exactly
that sale's header row and its line-item rows, and performs no stock
adjustment: the `product_sizes` table (every per-size stock counter) and the
`products` table are unchanged by the deletion. -/
theorem deleteSale_no_stock_adjustment (st : Store) (u : String) (s : SaleRow)
    (hf : st.sales.find? (fun r => r.uuid == u) = some s) :
    (bulkDeleteSales st [u]).product_sizes = st.product_sizes ∧
      (bulkDeleteSales st [u]).products = st.products ∧
      (bulkDeleteSales st [u]).sales =
        st.sales.filter (fun r => !(r.sale_id == s.sale_id)) ∧
      (bulkDeleteSales st [u]).sale_items =
        st.sale_items.filter (fun it => !(it.sale_id == s.sale_id)) := by
  have h1 : bulkDeleteSales st [u] = deleteSaleOnce st u := by
    simp [bulkDeleteSales]
  rw [h1]
  unfold deleteSaleOnce
  simp only [hf]
  refine ⟨?_, ?_, ?_, ?_⟩ <;> (first | rfl | trivial)

/-- C9 witness: a concrete store with two sales; deleting sale "s1" removes
its header and its line item, keeps sale "s2" and its line item, and leaves
the product and stock tables untouched. -/
theorem deleteSale_no_stock_adjustment_witness :
    let st : Store := ⟨[⟨1, "p1", "Shirt", "S1", 10, "", "", true⟩],
      [⟨1, "M", 5⟩],
      [⟨1, "s1", 30, "CASH", ""⟩, ⟨2, "s2", 10, "CARD", ""⟩],
      [⟨1, some 1, some "p1", "Shirt", "S1", "", "", "M", 3, 10, 0, 30⟩,
       ⟨2, some 1, some "p1", "Shirt", "S1", "", "", "M", 1, 10, 0, 10⟩], 3⟩
    let s : SaleRow := ⟨1, "s1", 30, "CASH", ""⟩
    (bulkDeleteSales st ["s1"]).product_sizes = st.product_sizes ∧
      (bulkDeleteSales st ["s1"]).products = st.products ∧
      (bulkDeleteSales st ["s1"]).sales =
        st.sales.filter (fun r => !(r.sale_id == s.sale_id)) ∧
      (bulkDeleteSales st ["s1"]).sale_items =
        st.sale_items.filter (fun it => !(it.sale_id == s.sale_id)) := by
  intro st s
  exact deleteSale_no_stock_adjustment st "s1" s (by decide)

/-- C10: a single-item sale whose catalog item resolves to an existing
product but either carries no (falsy) size or names a size with no matching
`product_sizes` row commits successfully with no stock check, no stock
decrement and no error: the resulting store keeps `product_sizes` (and
`products`) unchanged and only gains the sale header and the item's snapshot
row. -/
theorem commitSale_sizeless_catalog_item (st : Store) (item : ReqItem)
    (p : ProductRow) (u : String) (t : Int) (pm nt : String)
    (hpm : truthy pm = true) (hm : item.isManual = false)
    (hp : findProduct st.products item.productId = some p)
    (hs : truthy item.selectedSize = false ∨
      findSize st.product_sizes p.product_id item.selectedSize = none) :
    commitSale st u [item] t pm nt =
      ({ st with
          sales := st.sales ++ [saleHeaderRow st.nextSaleId u t pm nt],
          sale_items := st.sale_items ++
            [catalogItemRow st.nextSaleId p.product_id item],
          nextSaleId := st.nextSaleId + 1 }, none) := by
  have hstep : saleItemStep st.nextSaleId
      { st with
        sales := st.sales ++ [saleHeaderRow st.nextSaleId u t pm nt],
        nextSaleId := st.nextSaleId + 1 } item =
      Except.ok { st with
        sales := st.sales ++ [saleHeaderRow st.nextSaleId u t pm nt],
        sale_items := st.sale_items ++
          [catalogItemRow st.nextSaleId p.product_id item],
        nextSaleId := st.nextSaleId + 1 } := by
    have hm2 : ¬(item.isManual = true) := by rw [hm]; exact Bool.false_ne_true
    unfold saleItemStep
    rw [if_neg hm2]
    have hp2 : findProduct ({ st with
        sales := st.sales ++ [saleHeaderRow st.nextSaleId u t pm nt],
        nextSaleId := st.nextSaleId + 1 } : Store).products item.productId =
        some p := hp
    simp only [hp2]
    have hc : stockCheck { st with
        sales := st.sales ++ [saleHeaderRow st.nextSaleId u t pm nt],
        nextSaleId := st.nextSaleId + 1 } p.product_id item =
        Except.ok { st with
          sales := st.sales ++ [saleHeaderRow st.nextSaleId u t pm nt],
          nextSaleId := st.nextSaleId + 1 } := by
      unfold stockCheck
      rcases hs with hs | hs
      · rw [if_neg (by rw [hs]; exact Bool.false_ne_true)]
      · by_cases ht : truthy item.selectedSize = true
        · rw [if_pos ht]
          have hs2 : findSize ({ st with
              sales := st.sales ++ [saleHeaderRow st.nextSaleId u t pm nt],
              nextSaleId := st.nextSaleId + 1 } : Store).product_sizes
              p.product_id item.selectedSize = none := hs
          simp only [hs2]
        · rw [if_neg ht]
    simp only [hc]
  have hv : ¬((([item] : List ReqItem).isEmpty || !(truthy pm)) = true) := by
    rw [hpm]
    simp
  unfold commitSale
  rw [if_neg hv]
  simp only [saleItemsLoop, hstep]

/-- C10 witness: the product has only an "L" size row; a catalog item for
size "M" (quantity 2) commits with no error and no stock change — the "L"
stock stays 5 and the snapshot row for size "M" is inserted. -/
theorem commitSale_sizeless_catalog_item_witness :
    let st : Store := ⟨[⟨1, "p1", "Shirt", "S1", 10, "", "", true⟩],
      [⟨1, "L", 5⟩], [], [], 1⟩
    let item : ReqItem :=
      ⟨false, "p1", "Shirt", "S1", "", "", "M", 2, 10, 0, 20, none⟩
    commitSale st "sale_1" [item] 20 "CASH" "" =
      ({ st with
          sales := st.sales ++
            [saleHeaderRow st.nextSaleId "sale_1" 20 "CASH" ""],
          sale_items := st.sale_items ++
            [catalogItemRow st.nextSaleId 1 item],
          nextSaleId := st.nextSaleId + 1 }, none) := by
  intro st item
  exact commitSale_sizeless_catalog_item st item
    ⟨1, "p1", "Shirt", "S1", 10, "", "", true⟩ "sale_1" 20 "CASH" ""
    (by decide) (by decide) (by decide) (Or.inr (by decide))
